import Mathlib

/-!
Verification of the `dog_boarding` kennel/boarding reservation engine
(`src/dog_boarding/app.py`) against its natural-language specification.

The SQLite-backed store is modelled as explicit state (`Store`).  Date values
are byte strings (`Str := List Nat` of code points): both the Python string
comparisons (`start_date > end_date`) and the SQLite TEXT comparisons inside
`find_available_rooms` are lexicographic byte comparisons, modelled by `strLt`.
Each `exec_sql` call in the source opens a fresh connection and commits on
close, so every statement is its own transaction; the commit-level trace of
`new_booking` is modelled by `new_booking_commits`.  `last_insert_rowid()` is
read by `query_one` on a fresh connection, where it is `0`; the model reflects
this when writing `booking_pets` rows.
-/

namespace DogBoarding

/-- A text value (SQLite TEXT / Python str) as its list of code points. -/
abbrev Str := List Nat

/-- Strict lexicographic order on byte strings: the comparison performed both
by Python `<`/`>` on `str` and by SQLite on TEXT values (BINARY collation).
A strict prefix is smaller. -/
def strLt : Str → Str → Bool
  | [], [] => false
  | [], _ :: _ => true
  | _ :: _, [] => false
  | a :: as, b :: bs => if a < b then true else if b < a then false else strLt as bs

theorem strLt_irrefl (s : Str) : strLt s s = false := by
  induction s with
  | nil => rfl
  | cons a as ih => simp [strLt, ih]

theorem strLt_trans : ∀ {a b c : Str}, strLt a b = true → strLt b c = true → strLt a c = true
  | [], _ :: _, _ :: _, _, _ => rfl
  | a :: as, b :: bs, c :: cs, hab, hbc => by
    simp only [strLt] at hab hbc ⊢
    split_ifs at hab hbc ⊢ <;> first
      | rfl
      | omega
      | exact strLt_trans hab hbc

theorem strLt_total : ∀ a b : Str, strLt a b = true ∨ a = b ∨ strLt b a = true
  | [], [] => Or.inr (Or.inl rfl)
  | [], _ :: _ => Or.inl rfl
  | _ :: _, [] => Or.inr (Or.inr rfl)
  | a :: as, b :: bs => by
    rcases Nat.lt_trichotomy a b with h | h | h
    · exact Or.inl (by simp [strLt, h])
    · subst h
      rcases strLt_total as bs with h2 | h2 | h2
      · exact Or.inl (by simp [strLt, h2])
      · exact Or.inr (Or.inl (by rw [h2]))
      · exact Or.inr (Or.inr (by simp [strLt, h2]))
    · exact Or.inr (Or.inr (by simp [strLt, h]))

theorem strLt_false_trans {a b c : Str} (h1 : strLt b a = false)
    (h2 : strLt c b = false) : strLt c a = false := by
  cases hca : strLt c a
  · rfl
  · rcases strLt_total b c with h | h | h
    · exact absurd (strLt_trans h hca) (by simp [h1])
    · exact absurd (h ▸ hca) (by simp [h1])
    · exact absurd h (by simp [h2])

/-- Booking status; stored in the `status` TEXT column as `pending`,
`confirmed` or `cancelled`. -/
inductive Status where
  | pending
  | confirmed
  | cancelled
deriving DecidableEq, Repr

/-- `status IN ('pending','confirmed')` — an active booking. -/
def isActive : Status → Bool
  | .pending => true
  | .confirmed => true
  | .cancelled => false

/-- A row of the `rooms` table. -/
structure Room where
  id : Nat
  name : Str
  room_type : Str
  capacity : Nat
deriving DecidableEq, Repr

/-- A row of the `pets` table (the fields the engine reads). -/
structure Pet where
  id : Nat
  owner_id : Nat
  name : Str
deriving DecidableEq, Repr

/-- A row of the `bookings` table. -/
structure Booking where
  id : Nat
  owner_id : Nat
  start_date : Str
  end_date : Str
  room_id : Nat
  status : Status
deriving DecidableEq, Repr

/-- The SQLite database: rooms, pets, bookings, and the `booking_pets` join
table as `(booking_id, pet_id)` pairs.  `next_booking_id` models the
AUTOINCREMENT counter of the `bookings` table. -/
structure Store where
  rooms : List Room
  pets : List Pet
  bookings : List Booking
  booking_pets : List (Nat × Nat)
  next_booking_id : Nat
deriving DecidableEq, Repr

/-- The overlap condition of the SQL `NOT EXISTS` subquery, for query range
`[s, e)` against booking `b`: `s < b.end_date AND e > b.start_date`. -/
def overlapsB (s e : Str) (b : Booking) : Bool :=
  strLt s b.end_date && strLt b.start_date e

/-- A booking that blocks room `rid` for the range `[s, e)`: it is on that
room, has status pending or confirmed, and overlaps the range. -/
def blocks (rid : Nat) (s e : Str) (b : Booking) : Bool :=
  b.room_id == rid && isActive b.status && overlapsB s e b

/-- The `ORDER BY r.room_type ASC, r.name ASC` key order on rooms:
lexicographic byte order on the type, ties broken by the name. -/
def roomLe (a b : Room) : Bool :=
  strLt a.room_type b.room_type ||
    (a.room_type == b.room_type && !strLt b.name a.name)

/-- `roomLe` as a relation, for `List.insertionSort` and `List.Sorted`. -/
def roomLeP (a b : Room) : Prop := roomLe a b = true

instance : DecidableRel roomLeP := fun a b => by
  unfold roomLeP; infer_instance

instance : IsTotal Room roomLeP where
  total a b := by
    unfold roomLeP roomLe
    rcases strLt_total a.room_type b.room_type with h | h | h
    · exact Or.inl (by simp [h])
    · rcases strLt_total a.name b.name with h2 | h2 | h2
      · have : strLt b.name a.name = false := by
          cases hba : strLt b.name a.name
          · rfl
          · exact absurd (strLt_trans h2 hba) (by simp [strLt_irrefl])
        exact Or.inl (by simp [h, this])
      · exact Or.inl (by simp [h, h2, strLt_irrefl])
      · have : strLt a.name b.name = false := by
          cases hab : strLt a.name b.name
          · rfl
          · exact absurd (strLt_trans hab h2) (by simp [strLt_irrefl])
        exact Or.inr (by simp [h, this])
    · exact Or.inr (by simp [h])

instance : IsTrans Room roomLeP where
  trans a b c hab hbc := by
    unfold roomLeP roomLe at hab hbc ⊢
    simp only [Bool.or_eq_true, Bool.and_eq_true, beq_iff_eq,
      Bool.not_eq_true'] at hab hbc ⊢
    rcases hab with hab | ⟨hab1, hab2⟩
    · rcases hbc with hbc | ⟨hbc1, hbc2⟩
      · exact Or.inl (strLt_trans hab hbc)
      · exact Or.inl (hbc1 ▸ hab)
    · rcases hbc with hbc | ⟨hbc1, hbc2⟩
      · exact Or.inl (hab1 ▸ hbc)
      · exact Or.inr ⟨hab1.trans hbc1, strLt_false_trans hab2 hbc2⟩

/-- `find_available_rooms(start_date, end_date, num_pets)`: rooms with
`capacity >= num_pets` and no pending/confirmed booking overlapping
`[start_date, end_date)`, ordered by `room_type ASC, name ASC`. -/
def find_available_rooms (st : Store) (start_d end_d : Str) (num_pets : Nat) :
    List Room :=
  List.insertionSort roomLeP
    (st.rooms.filter fun r =>
      num_pets ≤ r.capacity && !(st.bookings.any (blocks r.id start_d end_d)))

/-- Outcome of a POST to `new_booking`.  `redirectNewPet`, `formError` and
`proposal` perform no write; `created` carries the store after all commits. -/
inductive Outcome where
  | redirectNewPet
  | formError
  | proposal (rooms : List Room)
  | created (st : Store)
deriving DecidableEq, Repr

/-- The single-statement transaction
`INSERT INTO bookings(owner_id, start_date, end_date, room_id, status)`:
the row id comes from the table's AUTOINCREMENT counter and the status is
`pending`. -/
def insertBookingRow (st : Store) (owner : Nat) (start_d end_d : Str)
    (room_id : Nat) : Store :=
  { st with
    bookings :=
      st.bookings ++ [⟨st.next_booking_id, owner, start_d, end_d, room_id, .pending⟩]
    next_booking_id := st.next_booking_id + 1 }

/-- The single-statement transaction
`INSERT INTO booking_pets(booking_id, pet_id)`. -/
def insertBookingPet (st : Store) (bid pid : Nat) : Store :=
  { st with booking_pets := st.booking_pets ++ [(bid, pid)] }

/-- The loop `for pid in pet_ids: exec_sql(...)`, one committed store state per
iteration. -/
def petCommits (st : Store) (bid : Nat) : List Nat → List Store
  | [] => []
  | pid :: rest =>
    let st1 := insertBookingPet st bid pid
    st1 :: petCommits st1 bid rest

/-- `query_one("SELECT last_insert_rowid() AS id")` opens a fresh SQLite
connection, on which `last_insert_rowid()` is `0`: no insert has been executed
on that connection, so the handler reads `booking_id = 0` regardless of the
row id just assigned by `INSERT INTO bookings`. -/
def read_last_insert_rowid : Nat := 0

/-- The POST handler `new_booking`, from form validation to the writes of the
`confirm == "1"` branch.  `confirm` is whether the form carried
`confirm == "1"`, `room_id` the form's room id. -/
def new_booking (st : Store) (owner : Nat) (start_d end_d : Str)
    (pet_ids : List Nat) (confirm : Bool) (room_id : Nat) : Outcome :=
  let myPets := st.pets.filter fun p => p.owner_id == owner
  if myPets.isEmpty then .redirectNewPet
  else if start_d.isEmpty || end_d.isEmpty || pet_ids.isEmpty then .formError
  else if strLt end_d start_d then .formError
  else
    let num_pets := pet_ids.length
    let available := find_available_rooms st start_d end_d num_pets
    if confirm then
      let st1 := insertBookingRow st owner start_d end_d room_id
      let bid := read_last_insert_rowid
      .created ((petCommits st1 bid pet_ids).getLastD st1)
    else .proposal available

/-- The sequence of committed (hence observable) store states produced by the
`confirm == "1"` branch of `new_booking`: each `exec_sql` commits on its own
connection, so the booking row and each `booking_pets` row become visible one
statement at a time. -/
def new_booking_commits (st : Store) (owner : Nat) (start_d end_d : Str)
    (pet_ids : List Nat) (room_id : Nat) : List Store :=
  let st1 := insertBookingRow st owner start_d end_d room_id
  st1 :: petCommits st1 read_last_insert_rowid pet_ids

/-- The `pets` the staff dashboard or the handler would associate with booking
`bid`: the `pet_id`s of `booking_pets` rows with `booking_id = bid`. -/
def petsOf (st : Store) (bid : Nat) : List Nat :=
  (st.booking_pets.filter fun a => a.1 == bid).map Prod.snd

/-- The `/staff/confirm/<bid>` handler body, for a caller passing the
`is_staff()` gate: `UPDATE bookings SET status='confirmed' WHERE id=?`,
executed unconditionally.  It returns the updated store; the handler then
flashes success and redirects whatever happened. -/
def staff_confirm (st : Store) (bid : Nat) : Store :=
  { st with
    bookings := st.bookings.map fun b =>
      if b.id == bid then { b with status := .confirmed } else b }

/-- Errors of the booking lifecycle surface named by the spec. -/
inductive AppError where
  | notFound
  | invalidTransition
deriving DecidableEq, Repr

/-- The bookings table after `UPDATE bookings SET status='cancelled' WHERE id=?`. -/
def cancelledStore (st : Store) (bid : Nat) : Store :=
  { st with
    bookings := st.bookings.map fun x =>
      if x.id == bid then { x with status := .cancelled } else x }

/-- Modelled from the spec: `cancelBooking(bookingId)` is absent from
`src/dog_boarding/app.py` (the spec notes it is "not present in the original
surface but required").  Per the spec it transitions a Pending/Confirmed
booking to Cancelled, fails with `NotFoundError` on an unknown id and with
`InvalidTransitionError` on a booking already Cancelled (no transition leaves
Cancelled). -/
def cancelBooking (st : Store) (bid : Nat) : Except AppError Store :=
  match st.bookings.find? fun b => b.id == bid with
  | none => .error .notFound
  | some b =>
    if isActive b.status then .ok (cancelledStore st bid)
    else .error .invalidTransition

/-- Two bookings conflict when they are on the same room, both active, and
their half-open date ranges overlap. -/
def conflict (b1 b2 : Booking) : Bool :=
  b1.room_id == b2.room_id && isActive b1.status && isActive b2.status &&
    strLt b1.start_date b2.end_date && strLt b2.start_date b1.end_date

/-- The no-overlap invariant: no two distinct rows of the `bookings` table
conflict. -/
def noOverlapInv : List Booking → Bool
  | [] => true
  | b :: bs => bs.all (fun b2 => !conflict b b2) && noOverlapInv bs

/-- An operation of the booking lifecycle surface. -/
inductive Op where
  | create (owner : Nat) (start_d end_d : Str) (pet_ids : List Nat)
      (confirm : Bool) (room_id : Nat)
  | cancel (bid : Nat)
deriving Repr

/-- Apply one operation to the store; failed operations leave it unchanged. -/
def applyOp (st : Store) : Op → Store
  | .create owner s e pids confirm rid =>
    match new_booking st owner s e pids confirm rid with
    | .created st1 => st1
    | _ => st
  | .cancel bid =>
    match cancelBooking st bid with
    | .ok st1 => st1
    | .error _ => st

/-- Run a sequence of lifecycle operations. -/
def runOps (st : Store) : List Op → Store
  | [] => st
  | op :: rest => runOps (applyOp st op) rest

/-- A calendar date, the value an ISO-8601 `YYYY-MM-DD` string denotes. -/
structure CalDate where
  year : Nat
  month : Nat
  day : Nat
deriving DecidableEq, Repr

/-- The date fits an ISO-8601 `YYYY-MM-DD` rendering: four-digit year and
calendar-shaped month and day fields. -/
def CalDate.valid (d : CalDate) : Bool :=
  d.year ≤ 9999 && 1 ≤ d.month && d.month ≤ 12 && 1 ≤ d.day && d.day ≤ 31

/-- Render `n < 100` as two ASCII digit code points, zero-padded. -/
def pad2 (n : Nat) : Str := [48 + n / 10, 48 + n % 10]

/-- Render `n < 10000` as four ASCII digit code points, zero-padded. -/
def pad4 (n : Nat) : Str :=
  [48 + n / 1000, 48 + n / 100 % 10, 48 + n / 10 % 10, 48 + n % 10]

/-- The ISO-8601 rendering `YYYY-MM-DD` of a calendar date (45 is `-`). -/
def isoRender (d : CalDate) : Str :=
  pad4 d.year ++ (45 :: (pad2 d.month ++ (45 :: pad2 d.day)))

/-- Chronological strict order on calendar dates. -/
def chronoBefore (d1 d2 : CalDate) : Bool :=
  d1.year < d2.year ||
    (d1.year == d2.year &&
      (d1.month < d2.month || (d1.month == d2.month && d1.day < d2.day)))

theorem strLt_append {xs ys : Str} (as bs : Str) (h : xs.length = ys.length) :
    strLt (xs ++ as) (ys ++ bs) = (strLt xs ys || (xs == ys && strLt as bs)) := by
  induction xs generalizing ys with
  | nil =>
    cases ys with
    | nil => simp [strLt]
    | cons b ys2 => simp at h
  | cons a xs2 ih =>
    cases ys with
    | nil => simp at h
    | cons b ys2 =>
      simp only [List.length_cons, Nat.add_right_cancel_iff] at h
      simp only [List.cons_append, strLt]
      rcases Nat.lt_trichotomy a b with hab | hab | hab
      · simp [hab]
      · subst hab
        simp [Nat.lt_irrefl, ih h]
      · have hne : ¬a = b := by omega
        simp [hab, Nat.lt_asymm hab, hne]

theorem pad2_lt {m1 m2 : Nat} (_h1 : m1 ≤ 99) (_h2 : m2 ≤ 99) :
    (strLt (pad2 m1) (pad2 m2) = true) ↔ m1 < m2 := by
  simp only [pad2, strLt]
  split_ifs <;> simp_all <;> omega

theorem pad2_inj {m1 m2 : Nat} (_h1 : m1 ≤ 99) (_h2 : m2 ≤ 99) :
    pad2 m1 = pad2 m2 ↔ m1 = m2 := by
  simp only [pad2, List.cons.injEq, and_true]
  omega

theorem pad4_lt {y1 y2 : Nat} (_h1 : y1 ≤ 9999) (_h2 : y2 ≤ 9999) :
    (strLt (pad4 y1) (pad4 y2) = true) ↔ y1 < y2 := by
  simp only [pad4, strLt]
  split_ifs <;> simp_all <;> omega

theorem pad4_inj {y1 y2 : Nat} (_h1 : y1 ≤ 9999) (_h2 : y2 ≤ 9999) :
    pad4 y1 = pad4 y2 ↔ y1 = y2 := by
  simp only [pad4, List.cons.injEq, and_true]
  omega

theorem isoRender_lt {d1 d2 : CalDate} (h1 : d1.valid = true)
    (h2 : d2.valid = true) :
    (strLt (isoRender d1) (isoRender d2) = true) ↔ chronoBefore d1 d2 = true := by
  obtain ⟨y1, m1, a1⟩ := d1
  obtain ⟨y2, m2, a2⟩ := d2
  simp only [CalDate.valid, Bool.and_eq_true, decide_eq_true_eq] at h1 h2
  obtain ⟨⟨⟨⟨hy1, hm1a⟩, hm1b⟩, ha1a⟩, ha1b⟩ := h1
  obtain ⟨⟨⟨⟨hy2, hm2a⟩, hm2b⟩, ha2a⟩, ha2b⟩ := h2
  rw [isoRender, isoRender, strLt_append _ _ (by simp [pad4])]
  simp only [isoRender, chronoBefore]
  have hsep1 : strLt (45 :: (pad2 m1 ++ (45 :: pad2 a1)))
      (45 :: (pad2 m2 ++ (45 :: pad2 a2)))
      = strLt (pad2 m1 ++ (45 :: pad2 a1)) (pad2 m2 ++ (45 :: pad2 a2)) := by
    simp [strLt]
  rw [hsep1, strLt_append _ _ (by simp [pad2])]
  have hsep2 : strLt (45 :: pad2 a1) (45 :: pad2 a2) = strLt (pad2 a1) (pad2 a2) := by
    simp [strLt]
  rw [hsep2]
  simp only [Bool.or_eq_true, Bool.and_eq_true, beq_iff_eq, decide_eq_true_eq]
  rw [pad4_lt hy1 hy2, pad2_lt (by omega) (by omega), pad2_lt (by omega) (by omega),
    pad4_inj hy1 hy2, pad2_inj (by omega) (by omega)]

section Fixtures

/-- 2024-06-01 as the engine sees it: a byte string. -/
def d0601 : Str := isoRender ⟨2024, 6, 1⟩

/-- 2024-06-04 as a byte string. -/
def d0604 : Str := isoRender ⟨2024, 6, 4⟩

/-- 2024-06-05 as a byte string. -/
def d0605 : Str := isoRender ⟨2024, 6, 5⟩

/-- 2024-06-06 as a byte string. -/
def d0606 : Str := isoRender ⟨2024, 6, 6⟩

/-- A capacity-2 room (name `A`, type `S`). -/
def room1 : Room := ⟨1, [65], [83], 2⟩

/-- A capacity-1 room (name `B`, type `T`). -/
def room2 : Room := ⟨2, [66], [84], 1⟩

/-- A pet of owner 1. -/
def pet1 : Pet := ⟨1, 1, [97]⟩

/-- A second pet of owner 1. -/
def pet2 : Pet := ⟨2, 1, [98]⟩

/-- A third pet of owner 1. -/
def pet3 : Pet := ⟨3, 1, [99]⟩

/-- Pet 5, owned by owner 1. -/
def pet5 : Pet := ⟨5, 1, [100]⟩

/-- Pet 7, owned by owner 2, not by owner 1. -/
def pet7 : Pet := ⟨7, 2, [101]⟩

end Fixtures

/-- The SQL `NOT EXISTS` clause, elementwise: no booking of the list blocks
room `rid` for `[s, e)` iff every pending/confirmed booking on that room fails
the overlap test. -/
theorem any_blocks_false_iff (bs : List Booking) (rid : Nat) (s e : Str) :
    bs.any (blocks rid s e) = false ↔
      ∀ b ∈ bs, b.room_id = rid → isActive b.status = true →
        overlapsB s e b = false := by
  rw [List.any_eq_false]
  constructor
  · intro h b hb hroom hact
    cases hov : overlapsB s e b
    · rfl
    · exact absurd (show blocks rid s e b = true by
        simp [blocks, hroom, hact, hov]) (by simpa using h b hb)
  · intro h b hb
    simp only [blocks, Bool.and_eq_true, beq_iff_eq, not_and]
    rintro ⟨hroom, hact⟩
    rw [h b hb hroom hact]
    exact Bool.false_ne_true

/-- C1: for a query with `start < end` and `requiredCapacity ≥ 1`, a room of
the catalog is returned by `find_available_rooms` iff its capacity is at least
the required capacity and no pending/confirmed booking on it overlaps
`[start, end)` under half-open semantics (`s1 < e2` and `s2 < e1`); the result
is ordered by room type ascending, then name ascending. -/
theorem claim1_available_iff_and_sorted (st : Store) (s e : Str) (n : Nat)
    (r : Room) (_hse : strLt s e = true) (_hn : 1 ≤ n) :
    (r ∈ find_available_rooms st s e n ↔
      r ∈ st.rooms ∧ n ≤ r.capacity ∧
        ∀ b ∈ st.bookings, b.room_id = r.id → isActive b.status = true →
          overlapsB s e b = false) ∧
    (find_available_rooms st s e n).Sorted roomLeP := by
  refine ⟨?_, List.sorted_insertionSort roomLeP _⟩
  rw [find_available_rooms, List.mem_insertionSort, List.mem_filter]
  constructor
  · rintro ⟨hmem, hp⟩
    rw [Bool.and_eq_true, Bool.not_eq_true'] at hp
    exact ⟨hmem, by simpa using hp.1, (any_blocks_false_iff _ _ _ _).mp hp.2⟩
  · rintro ⟨hmem, hcap, hblk⟩
    refine ⟨hmem, ?_⟩
    rw [Bool.and_eq_true, Bool.not_eq_true']
    exact ⟨by simpa using hcap, (any_blocks_false_iff _ _ _ _).mpr hblk⟩

/-- Fixture for C1's witness: two rooms, a pending booking on room 2 that
covers the queried range. -/
def wStore1 : Store := ⟨[room1, room2], [pet1], [⟨1, 1, d0601, d0605, 2, .pending⟩], [], 2⟩

/-- C1 witness: the characterisation and the ordering at a concrete store and
query. -/
theorem claim1_witness :
    (room1 ∈ find_available_rooms wStore1 d0601 d0605 1 ↔
      room1 ∈ wStore1.rooms ∧ 1 ≤ room1.capacity ∧
        ∀ b ∈ wStore1.bookings, b.room_id = room1.id → isActive b.status = true →
          overlapsB d0601 d0605 b = false) ∧
    (find_available_rooms wStore1 d0601 d0605 1).Sorted roomLeP :=
  claim1_available_iff_and_sorted wStore1 d0601 d0605 1 room1 (by decide) (by decide)

/-- Fixture for C2: one room, one pet, no bookings — trivially conflict-free. -/
def st2 : Store := ⟨[room1], [pet1], [], [], 1⟩

/-- Fixture for C2: two confirmed `new_booking` requests for room 1 with
overlapping ranges 2024-06-01..05 and 2024-06-04..06. -/
def ops2 : List Op := [.create 1 d0601 d0605 [1] true 1, .create 1 d0604 d0606 [1] true 1]

/-- C2 refuted on the code: starting from a conflict-free store, a sequence of
two `new_booking` requests leaves two overlapping pending bookings on room 1 —
the confirm branch never re-checks the overlap, so the no-overlap invariant is
not preserved. -/
theorem claim2_no_overlap_violated :
    noOverlapInv st2.bookings = true ∧
    noOverlapInv (runOps st2 ops2).bookings = false := by decide

/-- Fixture for C3: room 1 already holds a pending booking 2024-06-01..05. -/
def st3 : Store := ⟨[room1], [pet1], [⟨1, 1, d0601, d0605, 1, .pending⟩], [], 2⟩

/-- The store C3's conflicting request leaves behind. -/
def st3after : Store :=
  ⟨[room1], [pet1],
    [⟨1, 1, d0601, d0605, 1, .pending⟩, ⟨2, 1, d0604, d0606, 1, .pending⟩],
    [(0, 1)], 3⟩

/-- C3 refuted on the code: a confirmed request for room 1 overlapping the
existing pending booking succeeds and writes the booking — no commit-time
overlap re-check, no `RoomConflictError`. -/
theorem claim3_no_commit_recheck :
    new_booking st3 1 d0604 d0606 [1] true 1 = .created st3after ∧
    conflict ⟨1, 1, d0601, d0605, 1, .pending⟩ ⟨2, 1, d0604, d0606, 1, .pending⟩
      = true := by decide

/-- Fixture for C4: owner 1 with two pets, empty bookings table. -/
def st4 : Store := ⟨[room1], [pet1, pet2], [], [], 1⟩

/-- The store after the first commit of C4's request: booking row present, no
pet associations yet. -/
def st4mid : Store := ⟨[room1], [pet1, pet2], [⟨1, 1, d0601, d0605, 1, .pending⟩], [], 2⟩

/-- The store after all commits of C4's request: the `booking_pets` rows carry
`booking_id = 0` (the fresh-connection `last_insert_rowid()`), not the
booking's row id 1. -/
def st4end : Store :=
  ⟨[room1], [pet1, pet2], [⟨1, 1, d0601, d0605, 1, .pending⟩], [(0, 1), (0, 2)], 2⟩

/-- C4 refuted on the code: the first committed state of a two-pet booking
request already contains the booking row with zero pet associations, and even
the final state associates the pets with booking id 0, not with the booking. -/
theorem claim4_partial_writes_observable :
    (new_booking_commits st4 1 d0601 d0605 [1, 2] 1).head? = some st4mid ∧
    (st4mid.bookings.any fun b => b.id == 1) = true ∧
    petsOf st4mid 1 = [] ∧
    new_booking st4 1 d0601 d0605 [1, 2] true 1 = .created st4end ∧
    petsOf st4end 1 = [] := by decide

/-- Fixture for C5: the only booking, id 1, is cancelled. -/
def st5 : Store := ⟨[room1], [], [⟨1, 1, d0601, d0605, 1, .cancelled⟩], [], 2⟩

/-- C5 refuted on the code: confirming a nonexistent booking id is a silent
no-op (no `NotFoundError`), and confirming a cancelled booking moves it to
confirmed (`UPDATE` is unguarded, so Cancelled is not terminal). -/
theorem claim5_confirm_unguarded :
    staff_confirm st5 99 = st5 ∧
    (staff_confirm st5 1).bookings = [⟨1, 1, d0601, d0605, 1, .confirmed⟩] := by
  decide

/-- C6: cancelling a pending/confirmed booking succeeds, sets its status to
cancelled, and — the cancelled booking being excluded from the overlap check —
a room whose only blocking bookings had that id is again returned by
`find_available_rooms` for the same range, given sufficient capacity.
(`cancelBooking` is modelled from the spec; `find_available_rooms` is the
code's query.) -/
theorem claim6_cancel_frees_room (st : Store) (bid : Nat) (bk : Booking)
    (r : Room) (s e : Str) (n : Nat)
    (hfind : st.bookings.find? (fun b => b.id == bid) = some bk)
    (hact : isActive bk.status = true)
    (hr : r ∈ st.rooms) (hcap : n ≤ r.capacity)
    (hblk : ∀ b ∈ st.bookings, blocks r.id s e b = true → b.id = bid) :
    cancelBooking st bid = .ok (cancelledStore st bid) ∧
    (cancelledStore st bid).bookings.find? (fun b => b.id == bid) =
      some { bk with status := .cancelled } ∧
    r ∈ find_available_rooms (cancelledStore st bid) s e n := by
  have hid : (bk.id == bid) = true := by simpa using List.find?_some hfind
  refine ⟨?_, ?_, ?_⟩
  · unfold cancelBooking
    rw [hfind]
    simp [hact]
  · have hcomp : ((fun b : Booking => b.id == bid) ∘
        fun x => if x.id == bid then { x with status := Status.cancelled } else x)
        = fun b : Booking => b.id == bid := by
      funext x
      by_cases h : x.id = bid <;> simp [h]
    rw [cancelledStore]
    rw [List.find?_map, hcomp, hfind]
    simp [beq_iff_eq.mp hid]
  · rw [find_available_rooms, List.mem_insertionSort, List.mem_filter]
    refine ⟨hr, ?_⟩
    simp only [Bool.and_eq_true, decide_eq_true_eq, Bool.not_eq_true']
    refine ⟨hcap, ?_⟩
    rw [cancelledStore, List.any_map, List.any_eq_false]
    intro b hb
    by_cases h : (b.id == bid) = true
    · simp [Function.comp, h, blocks, isActive]
    · simp only [Function.comp, h, if_neg, Bool.false_eq_true, not_false_eq_true,
        if_false]
      intro hbl
      exact absurd (beq_iff_eq.mpr (hblk b hb hbl)) (by simp [h])

/-- Fixture for C6's witness: room 1 blocked only by pending booking 1. -/
def st6 : Store := ⟨[room1], [pet1], [⟨1, 1, d0601, d0605, 1, .pending⟩], [(0, 1)], 2⟩

/-- C6 witness: cancelling booking 1 frees room 1 for the same range. -/
theorem claim6_witness :
    cancelBooking st6 1 = .ok (cancelledStore st6 1) ∧
    (cancelledStore st6 1).bookings.find? (fun b => b.id == 1) =
      some ⟨1, 1, d0601, d0605, 1, .cancelled⟩ ∧
    room1 ∈ find_available_rooms (cancelledStore st6 1) d0601 d0605 2 :=
  claim6_cancel_frees_room st6 1 ⟨1, 1, d0601, d0605, 1, .pending⟩ room1 d0601
    d0605 2 (by decide) (by decide) (by decide) (by decide) (by decide)

/-- Fixture for C7: one room, one pet, empty bookings table. -/
def st7 : Store := ⟨[room1], [pet1], [], [], 1⟩

/-- The store C7's zero-length request leaves behind. -/
def st7end : Store :=
  ⟨[room1], [pet1], [⟨1, 1, d0601, d0601, 1, .pending⟩], [(0, 1)], 2⟩

/-- C7 refuted on the code: the handler only rejects `start_date > end_date`,
so the zero-length request `start = end = 2024-06-01` is accepted and a
booking is written, against both the spec and the source's own comment. -/
theorem claim7_zero_length_accepted :
    strLt d0601 d0601 = false ∧
    new_booking st7 1 d0601 d0601 [1] true 1 = .created st7end := by decide

/-- Fixture for C8: room 1 has capacity 2; owner 1 has three pets. -/
def st8 : Store := ⟨[room1], [pet1, pet2, pet3], [], [], 1⟩

/-- The store C8's over-capacity request leaves behind. -/
def st8end : Store :=
  ⟨[room1], [pet1, pet2, pet3], [⟨1, 1, d0601, d0605, 1, .pending⟩],
    [(0, 1), (0, 2), (0, 3)], 2⟩

/-- C8 refuted on the code: a confirmed request with 3 pets against the
capacity-2 room succeeds and writes the booking and associations — the room id
from the form is never checked against `find_available_rooms`, which excludes
the room. -/
theorem claim8_capacity_not_enforced :
    room1.capacity = 2 ∧
    find_available_rooms st8 d0601 d0605 3 = [] ∧
    new_booking st8 1 d0601 d0605 [1, 2, 3] true 1 = .created st8end := by decide

/-- Fixture for C9: owner 1 owns pet 5; pet 7 belongs to owner 2. -/
def st9 : Store := ⟨[room1], [pet5, pet7], [], [], 1⟩

/-- The store C9's foreign-pet request leaves behind. -/
def st9end : Store :=
  ⟨[room1], [pet5, pet7], [⟨1, 1, d0601, d0605, 1, .pending⟩], [(0, 7)], 2⟩

/-- C9 refuted on the code: owner 1's request naming owner 2's pet 7 succeeds
and writes the booking and the `booking_pets` association — the posted
`pet_ids` are never checked against the owner's pets. -/
theorem claim9_ownership_not_enforced :
    pet7.owner_id = 2 ∧
    new_booking st9 1 d0601 d0605 [7] true 1 = .created st9end := by decide

/-- C10: the engine compares dates as raw strings; on ISO-8601 `YYYY-MM-DD`
renderings, that lexicographic comparison coincides with chronological order,
so in particular the code's overlap test is chronologically correct on such
inputs. -/
theorem claim10_iso_lex_chrono (d1 d2 d3 d4 : CalDate) (b : Booking)
    (h1 : d1.valid = true) (h2 : d2.valid = true)
    (h3 : d3.valid = true) (h4 : d4.valid = true)
    (hs : b.start_date = isoRender d3) (he : b.end_date = isoRender d4) :
    (strLt (isoRender d1) (isoRender d2) = true ↔ chronoBefore d1 d2 = true) ∧
    (overlapsB (isoRender d1) (isoRender d2) b = true ↔
      (chronoBefore d1 d4 = true ∧ chronoBefore d3 d2 = true)) := by
  refine ⟨isoRender_lt h1 h2, ?_⟩
  rw [overlapsB, hs, he, Bool.and_eq_true]
  exact and_congr (isoRender_lt h1 h4) (isoRender_lt h3 h2)

/-- C10 witness: the query 2024-06-04..06 against a booking 2024-06-01..05. -/
theorem claim10_witness :
    (strLt (isoRender ⟨2024, 6, 4⟩) (isoRender ⟨2024, 6, 6⟩) = true ↔
      chronoBefore ⟨2024, 6, 4⟩ ⟨2024, 6, 6⟩ = true) ∧
    (overlapsB (isoRender ⟨2024, 6, 4⟩) (isoRender ⟨2024, 6, 6⟩)
        ⟨1, 1, d0601, d0605, 1, .pending⟩ = true ↔
      (chronoBefore ⟨2024, 6, 4⟩ ⟨2024, 6, 5⟩ = true ∧
        chronoBefore ⟨2024, 6, 1⟩ ⟨2024, 6, 6⟩ = true)) :=
  claim10_iso_lex_chrono ⟨2024, 6, 4⟩ ⟨2024, 6, 6⟩ ⟨2024, 6, 1⟩ ⟨2024, 6, 5⟩
    ⟨1, 1, d0601, d0605, 1, .pending⟩ (by decide) (by decide) (by decide)
    (by decide) rfl rfl

end DogBoarding
